import Mathlib

/-!
# Verification of the polars CSV core (`polars-io/src/csv_core/csv.rs`)

A shallow embedding of `SequentialReader` and the functions it calls.
Bytes are modelled as `List Nat` (byte values `< 256`), machine integers as
`Nat`.  Fallible Rust code returns `POut` (ok / recoverable `Err` /
`panic!`-style abort).  Functions of the repository that are not part of the
given source file (the byte scanner, the line parser, the chunker, the
dataframe primitives) are modelled from the specification; their doc
comments say so explicitly.  Field values are kept as raw (unescaped) byte
lists: the claims under study concern column order, row counts, the shared
capacity table and the error paths, none of which depend on typed decoding
of the field bytes.
-/

namespace PolarsCsv

/-- Outcome of a Rust computation: `ok`, a recoverable `Err` propagated with
`?`, or an unrecoverable `panic!` / `unwrap` / `expect` abort. -/
inductive POut (α : Type) where
  | ok (a : α)
  | err (e : String)
  | panic (msg : String)
  deriving DecidableEq, Repr

/-- Sequencing of fallible Rust steps: `Err` and panics short-circuit. -/
def pbind {α β : Type} : POut α → (α → POut β) → POut β
  | .ok a, f => f a
  | .err e, _ => .err e
  | .panic m, _ => .panic m

/-- Rust `Option::unwrap`: panics on `None`. -/
def optUnwrap {α : Type} : Option α → POut α
  | some a => .ok a
  | none => .panic "called Option::unwrap on a None value"

/-- Rust `Result::unwrap`: panics on `Err`. -/
def resUnwrap {α : Type} : Except String α → POut α
  | .ok a => .ok a
  | .error _ => .panic "called Result::unwrap on an Err value"

/-- Logical data types of the schema (spec §3). -/
inductive DataType where
  | int32 | int64 | uint32 | uint64 | float32 | float64
  | boolean | utf8 | date
  deriving DecidableEq, Repr

/-- A schema field: name and logical type. -/
structure Field where
  name : String
  dtype : DataType
  deriving DecidableEq, Repr

/-- A cell: `none` is a null, `some bs` holds the raw field bytes. -/
abbrev Cell : Type := Option (List Nat)

/-- A column (also used for the per-worker column buffers: `into_series`
is the identity in this model). -/
structure Column where
  name : String
  dtype : DataType
  values : List Cell
  deriving DecidableEq, Repr

/-- A dataframe: an ordered list of columns. -/
structure DataFrame where
  columns : List Column
  deriving DecidableEq, Repr

/-- `DataFrame::height`: length of the first column, `0` when empty. -/
def DataFrame.height (df : DataFrame) : Nat :=
  match df.columns with
  | [] => 0
  | c :: _ => c.values.length

/-- `DataFrame::slice(0, n)`: keep the first `n` rows of every column.
Modelled from the spec (§4.6 step 6): truncation of the concatenated frame. -/
def DataFrame.slice (df : DataFrame) (n : Nat) : DataFrame :=
  ⟨df.columns.map (fun c => { c with values := c.values.take n })⟩

/-! ## Byte scanner (modelled from the spec, §4.1) -/

/-- Modelled from the spec: `skip_bom` — if the first three bytes are
`EF BB BF`, advance past them. -/
def skip_bom (bytes : List Nat) : List Nat :=
  match bytes with
  | 239 :: 187 :: 191 :: rest => rest
  | _ => bytes

/-- Modelled from the spec: `skip_whitespace` — advance while bytes are
space or tab (not newline). -/
def skip_whitespace (bytes : List Nat) : List Nat :=
  bytes.dropWhile (fun b => b = 32 || b = 9)

/-- Modelled from the spec: `skip_line_ending` — consume at most one
`\r\n`, `\n`, or `\r`. -/
def skip_line_ending (bytes : List Nat) : List Nat :=
  match bytes with
  | 13 :: 10 :: rest => rest
  | 10 :: rest => rest
  | 13 :: rest => rest
  | _ => bytes

/-- Auxiliary scanner for `skip_header`: quote-aware advance past one
logical line.  `inQ` tracks whether we are inside a quoted field. -/
def skipHeaderAux : List Nat → Bool → List Nat
  | [], _ => []
  | b :: rest, inQ =>
    if b = 34 then skipHeaderAux rest (!inQ)
    else if !inQ && b = 10 then rest
    else if !inQ && b = 13 then
      match rest with
      | 10 :: rest' => rest'
      | _ => rest
    else skipHeaderAux rest inQ

/-- Modelled from the spec: `skip_header` — advance past one logical line
(quote-aware). -/
def skip_header (bytes : List Nat) : List Nat :=
  skipHeaderAux bytes false

/-- Count the unquoted delimiters occurring before the record terminator,
quote-aware.  Used by the field-count heuristic of `next_line_position`. -/
def countDelimsToTerminator : List Nat → Nat → Bool → Nat
  | [], _, _ => 0
  | b :: rest, d, inQ =>
    if b = 34 then countDelimsToTerminator rest d (!inQ)
    else if !inQ && (b = 10 || b = 13) then 0
    else if !inQ && b = d then 1 + countDelimsToTerminator rest d false
    else countDelimsToTerminator rest d inQ

/-- The field-count heuristic of the spec: the candidate record must show
`expected_fields - 1` unquoted delimiters before its terminator. -/
def candidateOk (bytes : List Nat) (expectedFields delim : Nat) : Bool :=
  expectedFields - 1 ≤ countDelimsToTerminator bytes delim false

/-- Scanner for `next_line_position`: try every position following a `\n`
byte, accept the first that passes the field-count heuristic; `none` when
the scan reaches the end of the input. -/
def nlpAux : List Nat → Nat → Nat → Nat → Option Nat
  | [], _, _, _ => none
  | b :: rest, ef, d, off =>
    if b = 10 && candidateOk rest ef d then some (off + 1)
    else nlpAux rest ef d (off + 1)

/-- Modelled from the spec: `next_line_position(bytes, expected_fields,
delimiter)` — locate a byte offset beginning a candidate record whose
first `expected_fields - 1` unquoted delimiters are found before its
terminator; "not found" when scanning to end of input fails the check. -/
def next_line_position (bytes : List Nat) (expectedFields delim : Nat) : Option Nat :=
  nlpAux bytes expectedFields delim 0

/-! ## Record and field tokenization (modelled from the spec, §4.4) -/

/-- Quote-aware splitting of a byte region into records.  Records are
separated by `\n` or `\r` (so a `\r\n` pair yields an empty intermediate
record); empty records are skipped — scenario 2 of the spec shows that the
terminator appended by the core adds no row, so an empty line yields no
record. -/
def splitRecordsAux : List Nat → Bool → List Nat → List (List Nat)
  | [], _, acc => if acc.isEmpty then [] else [acc.reverse]
  | b :: rest, inQ, acc =>
    if b = 34 then splitRecordsAux rest (!inQ) (34 :: acc)
    else if (b = 10 || b = 13) && !inQ then
      if acc.isEmpty then splitRecordsAux rest false []
      else acc.reverse :: splitRecordsAux rest false []
    else splitRecordsAux rest inQ (b :: acc)

/-- Modelled from the spec: the records of a byte sub-region. -/
def splitRecords (bytes : List Nat) : List (List Nat) :=
  splitRecordsAux bytes false []

/-- Quote-aware splitting of one record into its fields. -/
def splitFieldsAux : List Nat → Nat → Bool → List Nat → List (List Nat)
  | [], _, _, acc => [acc.reverse]
  | b :: rest, d, inQ, acc =>
    if b = 34 then splitFieldsAux rest d (!inQ) (34 :: acc)
    else if !inQ && b = d then acc.reverse :: splitFieldsAux rest d false []
    else splitFieldsAux rest d inQ (b :: acc)

/-- Modelled from the spec: the fields of one record. -/
def splitFields (record : List Nat) (delim : Nat) : List (List Nat) :=
  splitFieldsAux record delim false []

/-- Replace every embedded `""` by a single `"` (spec §4.4). -/
def unescapeQuotes : List Nat → List Nat
  | 34 :: 34 :: rest => 34 :: unescapeQuotes rest
  | b :: rest => b :: unescapeQuotes rest
  | [] => []

/-- Strip the surrounding quotes of a quoted field and unescape `""`;
an unquoted field is kept verbatim. -/
def processField (f : List Nat) : List Nat :=
  if f.head? = some 34 && f.getLast? = some 34 && decide (2 ≤ f.length) then
    unescapeQuotes (f.drop 1).dropLast
  else f

/-! ## Line parser and column buffers (modelled from the spec, §4.3–4.4) -/

/-- Modelled from the spec: `init_buffers` — one empty buffer per projected
column, named and typed from the schema.  The Rust code indexes the schema
with the projected index and panics when it is out of bounds.  The
capacity hints (row capacity and shared string-capacity table) do not
affect buffer contents (spec: a capacity is a hint, not a limit), so they
do not appear here. -/
def init_buffers (schema : List Field) : List Nat → POut (List Column)
  | [] => .ok []
  | i :: rest =>
    pbind (optUnwrap (schema.get? i)) fun f =>
    pbind (init_buffers schema rest) fun tl =>
    .ok ({ name := f.name, dtype := f.dtype, values := [] } :: tl)

/-- Append one record to the buffers: buffer `k` receives the field whose
index is the `k`-th entry of the (sorted) projection; a missing field is a
null (spec: a short record is padded with nulls, excess fields dropped). -/
def appendRecord (delim : Nat) (projection : List Nat) (record : List Nat)
    (bufs : List Column) : List Column :=
  let fields := splitFields record delim
  List.zipWith
    (fun p b => { b with values := b.values ++ [(fields.get? p).map processField] })
    projection bufs

/-- Modelled from the spec: `parse_lines` — parse every record of the
sub-region into the buffers.  The absolute-offset argument of the Rust
function only feeds error line numbers, which the raw-bytes value model
cannot produce, so it is omitted. -/
def parse_lines (localBytes : List Nat) (delim : Nat) (projection : List Nat)
    (bufs : List Column) : List Column :=
  (splitRecords localBytes).foldl
    (fun bs record => appendRecord delim projection record bs) bufs

/-! ## Chunker (modelled from the spec, §4.2) -/

/-- Chunk-splitting loop: at most `fuel` boundaries, each snapped forward
to a record boundary by `next_line_position`; always terminated by the
final sub-region reaching the end of the input. -/
def fileChunksAux (bytes : List Nat) (ef d step : Nat) : Nat → Nat → List (Nat × Nat)
  | 0, lastPos => [(lastPos, bytes.length)]
  | Nat.succ fuel, lastPos =>
    let searchPos := lastPos + step
    if bytes.length ≤ searchPos then [(lastPos, bytes.length)]
    else
      match next_line_position (bytes.drop searchPos) ef d with
      | some pos => (lastPos, searchPos + pos) :: fileChunksAux bytes ef d step fuel (searchPos + pos)
      | none => [(lastPos, bytes.length)]

/-- Modelled from the spec: `get_file_chunks` — split the region into at
most `nThreads` line-aligned `[start, stop)` sub-regions covering it. -/
def get_file_chunks (bytes : List Nat) (nThreads ef d : Nat) : List (Nat × Nat) :=
  if nThreads = 0 then [(0, bytes.length)]
  else fileChunksAux bytes ef d (bytes.length / nThreads) nThreads 0

/-! ## Dataframe primitives (modelled from the spec) -/

/-- Filter the rows of one column by a boolean mask. -/
def filterValues (mask : List Bool) (vals : List Cell) : List Cell :=
  ((mask.zip vals).filter (fun p => p.1)).map (fun p => p.2)

/-- `DataFrame::filter`: keep the rows at which the mask is true. -/
def DataFrame.filterRows (df : DataFrame) (mask : List Bool) : DataFrame :=
  ⟨df.columns.map (fun c => { c with values := filterValues mask c.values })⟩

/-- Interpret a (boolean) column as a mask; in the raw-bytes value model a
true cell is `some [1]`. -/
def maskBits (c : Column) : List Bool :=
  c.values.map (fun v => v = some [1])

/-- `vstack` of two frames: concatenate columns pointwise, keeping the
left frame's names and dtypes. -/
def vstack (a b : DataFrame) : DataFrame :=
  ⟨List.zipWith (fun ca cb => { ca with values := ca.values ++ cb.values })
    a.columns b.columns⟩

/-- Modelled from the spec: `accumulate_dataframes_vertical` — vertical
concatenation of the partial frames, in sub-region order; an error on an
empty list. -/
def accumulate_dataframes_vertical : List DataFrame → POut DataFrame
  | [] => .err "cannot accumulate an empty list of dataframes"
  | d :: rest => .ok (rest.foldl vstack d)

/-- Total bytes of string data held by a column
(`Utf8Chunked::get_values_size`). -/
def strBytesLen (c : Column) : Nat :=
  (c.values.map (fun v => (v.getD []).length)).sum

/-! ## The `SequentialReader` (from the source, `csv.rs`) -/

/-- Result of the external `get_line_stats` collaborator (spec §4.5): mean
and standard deviation of the sampled line lengths.  `get_line_stats` is
not part of the source file, so its result is an input of the model;
rationals stand for the `f32` values. -/
structure LineStats where
  mean : ℚ
  std : ℚ
  deriving DecidableEq, Repr

/-- `f32 as usize` on a nonnegative value: truncate; a negative value
saturates to `0`. -/
def ratToNat (q : ℚ) : Nat := q.floor.toNat

/-- The state of a `SequentialReader` (struct fields of `csv.rs:18-39`).
The `record_iter` is modelled by the bytes the underlying reader will
yield on `read_to_end`; `path` by the bytes of the memory-mapped file.
`batch_size`, `line_number`, `ignore_parser_errors`, `encoding` and
`sample_size` do not influence the modelled observables (the raw-bytes
value model has no decode failures, and the sample only feeds the external
`get_line_stats`), so they are omitted. -/
structure ReaderState where
  schema : List Field
  projection : Option (List Nat)
  recordIterBytes : Option (List Nat)
  nRows : Option Nat
  nThreads : Option Nat
  path : Option (List Nat)
  hasHeader : Bool
  delimiter : Nat
  skipRows : Nat
  chunkSize : Nat
  deriving DecidableEq, Repr

/-- Rust slice indexing `fields[*i]`: panics when out of bounds. -/
def idxPanic {α : Type} : Option α → POut α
  | some a => .ok a
  | none => .panic "index out of bounds"

/-- `SequentialReader::schema` (`csv.rs:58-69`), field collection: the
fields taken in the order of the *stored* projection (`fields[*i]` panics
on an out-of-bounds index). -/
def fieldsAt (schema : List Field) : List Nat → POut (List Field)
  | [] => .ok []
  | i :: rest =>
    pbind (idxPanic (schema.get? i)) fun f =>
    pbind (fieldsAt schema rest) fun tl =>
    .ok (f :: tl)

/-- `SequentialReader::schema` (`csv.rs:58-69`). -/
def schemaAccessor (st : ReaderState) : POut (List Field) :=
  match st.projection with
  | some projection => fieldsAt st.schema projection
  | none => .ok st.schema

/-- The `skip_rows` loop of `find_starting_point` (`csv.rs:123-129`):
each iteration advances past one line via `next_line_position`, failing
with `NoData("not enough lines to skip")` when none is found. -/
def skipRowsLoop (schemaLen delim : Nat) : Nat → List Nat → Except String (List Nat)
  | 0, bytes => .ok bytes
  | n + 1, bytes =>
    match next_line_position bytes schemaLen delim with
    | none => .error "not enough lines to skip"
    | some pos => skipRowsLoop schemaLen delim n (bytes.drop pos)

/-- `SequentialReader::find_starting_point` (`csv.rs:114-131`). -/
def find_starting_point (st : ReaderState) (bytes : List Nat) : Except String (List Nat) :=
  let b1 := skip_line_ending (skip_whitespace (skip_bom bytes))
  let b2 := if st.hasHeader then skip_header b1 else b1
  skipRowsLoop st.schema.length st.delimiter st.skipRows b2

/-- The statistics section of `parse_csv` (`csv.rs:144-178`): initial row
guess `128`; with line statistics, estimate `total_rows`, clamp by
`n_rows`, and trim the tail of the buffer at the estimated byte cutoff
(snapped forward to the next record boundary). -/
def statsPlan (st : ReaderState) (b0 : List Nat) (stats : Option LineStats) :
    Nat × List Nat :=
  match stats with
  | none => (128, b0)
  | some s =>
    let est := ratToNat ((b0.length : ℚ) / (s.mean - (1 / 100) * s.std))
    match st.nRows with
    | none => (est, b0)
    | some n =>
      let totalRows := min n est
      let nBytes := ratToNat ((s.mean + (11 / 10) * s.std) * (n : ℚ))
      if nBytes < b0.length then
        match next_line_position (b0.drop nBytes) st.schema.length st.delimiter with
        | some pos => (totalRows, b0.take (nBytes + pos))
        | none => (totalRows, b0)
      else (totalRows, b0)

/-- The projection actually used by `parse_csv` (`csv.rs:185-192`): the
stored projection taken and sorted ascending, or `0..schema.len()`. -/
def resolveProjection (projection : Option (List Nat)) (schemaLen : Nat) : List Nat :=
  match projection with
  | some v => v.insertionSort (· ≤ ·)
  | none => List.range schemaLen

/-- The `str_columns` filter of `parse_csv` (`csv.rs:205-209`): the
projected indices whose schema field is `Utf8`; `schema.field(*i).unwrap()`
panics on an out-of-bounds index. -/
def strColumnsOf (schema : List Field) : List Nat → POut (List Nat)
  | [] => .ok []
  | i :: rest =>
    pbind (optUnwrap (schema.get? i)) fun f =>
    pbind (strColumnsOf schema rest) fun tl =>
    .ok (if f.dtype = DataType.utf8 then i :: tl else tl)

/-- The capacity-statistics update of a worker (`csv.rs:277-297`): walk
`str_columns` with a running `str_index` into the shared table; each entry
is `fetch_max`-ed with the byte size of `df.select_at_idx(i)` — note that
`i` is the *schema* index while `df` holds only the projected columns, so
the lookup (`.unwrap()`) or the `utf8()` downcast (`.unwrap()`) can panic. -/
def utf8Unwrap (c : Column) : POut Column :=
  if c.dtype = DataType.utf8 then .ok c
  else .panic "called Option::unwrap on a None value"

/-- The capacity-statistics update of a worker (`csv.rs:277-297`): walk
`str_columns` with a running `str_index` into the shared table; each entry
is `fetch_max`-ed with the byte size of `df.select_at_idx(i)` — note that
`i` is the *schema* index while `df` holds only the projected columns. -/
def updateStrCapacities (df : DataFrame) : List Nat → List Nat → POut (List Nat)
  | [], caps => .ok caps
  | i :: rest, caps =>
    pbind (optUnwrap (df.columns.get? i)) fun c =>
    pbind (utf8Unwrap c) fun ca =>
    match caps with
    | [] => .panic "index out of bounds"
    | p :: capsRest =>
      pbind (updateStrCapacities df rest capsRest) fun tl =>
      .ok (max p (strBytesLen ca) :: tl)

/-- Type of the injected row predicate (spec §6): `evaluate(frame)` is
expected to yield a boolean column. -/
abbrev Pred : Type := DataFrame → Except String Column

/-- Type of a post-aggregation (spec §6): `finish(frame)` yields a column. -/
abbrev Agg : Type := DataFrame → Except String Column

/-- The predicate step of a worker (`csv.rs:271-275`): an `evaluate` error
propagates with `?`; a non-boolean result panics through
`expect("filter predicates was not of type boolean")`; otherwise the frame
is filtered by the mask. -/
def applyPredicate (pred : Option Pred) (df : DataFrame) : POut DataFrame :=
  match pred with
  | none => .ok df
  | some p =>
    match p df with
    | .error e => .err e
    | .ok s =>
      if s.dtype = DataType.boolean then .ok (df.filterRows (maskBits s))
      else .panic "filter predicates was not of type boolean"

/-- One worker of `parse_csv` (`csv.rs:243-299`): build the buffers, parse
the sub-region, assemble the partial frame, apply the predicate, update
the shared string-capacity table. -/
def workerStep (schema : List Field) (strCols projection : List Nat) (delim : Nat)
    (pred : Option Pred) (bytes : List Nat) (chunk : Nat × Nat) (caps : List Nat) :
    POut (DataFrame × List Nat) :=
  pbind (init_buffers schema projection) fun bufs =>
  pbind (applyPredicate pred ⟨parse_lines ((bytes.take chunk.2).drop chunk.1) delim projection bufs⟩) fun df =>
  pbind (updateStrCapacities df strCols caps) fun caps' =>
  .ok (df, caps')

/-- The worker fold of `parse_csv` (`csv.rs:240-302`): the chunks in
sub-region order, threading the shared capacity table; the first error in
sub-region order is reported. -/
def runWorkers (schema : List Field) (strCols projection : List Nat) (delim : Nat)
    (pred : Option Pred) (bytes : List Nat) :
    List (Nat × Nat) → List Nat → POut (List DataFrame × List Nat)
  | [], caps => .ok ([], caps)
  | chunk :: chunks, caps =>
    pbind (workerStep schema strCols projection delim pred bytes chunk caps) fun p =>
    pbind (runWorkers schema strCols projection delim pred bytes chunks p.2) fun q =>
    .ok (p.1 :: q.1, q.2)

/-- The body of `parse_csv` after `find_starting_point` (`csv.rs:144-304`):
statistics, projection sort, chunk-size planning (where
`total_rows / chunk_size` and the chunker's `len / n_threads` are Rust
`usize` divisions, panicking on a zero divisor), dispatch and vertical
accumulation. -/
def parse_csv_core (st : ReaderState) (nThreads : Nat) (b0 : List Nat)
    (stats : Option LineStats) (pred : Option Pred) : POut DataFrame :=
  let plan := statsPlan st b0 stats
  let totalRows := plan.1
  let bytes1 := plan.2
  let projection := resolveProjection st.projection st.schema.length
  let chunkSize := min st.chunkSize totalRows
  if chunkSize = 0 then .panic "attempt to divide by zero"
  else
    pbind (strColumnsOf st.schema projection) fun strCols =>
    let caps0 := strCols.map (fun _ => chunkSize * 100)
    if nThreads = 0 then .panic "attempt to divide by zero"
    else
      let chunks := get_file_chunks bytes1 nThreads st.schema.length st.delimiter
      pbind (runWorkers st.schema strCols projection st.delimiter pred bytes1 chunks caps0)
        fun q => accumulate_dataframes_vertical q.1

/-- `SequentialReader::parse_csv` (`csv.rs:133-305`).  The
`POLARS_VERBOSE` diagnostics are pure output and modelled separately by
`parseCsvStatsLog`.  `self.projection.take()` leaves the stored projection
`None` once the statistics section has run; the early `?` return of
`find_starting_point` happens before the take. -/
def parse_csv (st : ReaderState) (nThreads : Nat) (bytes : List Nat)
    (stats : Option LineStats) (pred : Option Pred) : POut DataFrame × ReaderState :=
  match find_starting_point st bytes with
  | .error e => (.err e, st)
  | .ok b0 => (parse_csv_core st nThreads b0 stats pred, { st with projection := none })

/-- The verbose diagnostics of `parse_csv`, abstracted from the printed
numbers. -/
inductive LogEvent where
  | avgLineLength
  | initialRowEstimate
  | noStatistics
  | chunkInfo
  deriving DecidableEq, Repr

/-- The statistics diagnostics of `parse_csv` (`csv.rs:148-181`, with
`POLARS_VERBOSE` set): the line-statistics messages are printed inside the
`if let Some` branch, and the line
`"file < 128 rows, no statistics determined"` is printed *after* that
branch, unconditionally. -/
def parseCsvStatsLog (stats : Option LineStats) : List LogEvent :=
  (match stats with
   | some _ => [LogEvent.avgLineLength, LogEvent.initialRowEstimate]
   | none => []) ++ [LogEvent.noStatistics]

/-- The trailing-terminator guard of the reader branch of `as_df`
(`csv.rs:326-330`): `!bytes.is_empty() && (last != b'\n' || last != b'\r')`
— the source's condition, verbatim, including the `||`. -/
def ensureTerminator (bytes : List Nat) : List Nat :=
  if !bytes.isEmpty && (bytes.getLastD 0 != 10 || bytes.getLastD 0 != 13) then
    bytes ++ [10]
  else bytes

/-- The aggregation step of `as_df` (`csv.rs:336-342`): each
`scan_agg.finish(&df)` is `.unwrap()`-ed, so a failing aggregation panics
rather than returning the typed error. -/
def aggColumns (df : DataFrame) : List Agg → POut (List Column)
  | [] => .ok []
  | a :: rest =>
    pbind (resUnwrap (a df)) fun c =>
    pbind (aggColumns df rest) fun tl =>
    .ok (c :: tl)

/-- `as_df` aggregation wrapper: replace the frame by the aggregated
columns when aggregations are supplied. -/
def applyAggregations (aggs : Option (List Agg)) (df : DataFrame) : POut DataFrame :=
  match aggs with
  | none => .ok df
  | some as_ => pbind (aggColumns df as_) fun cols => .ok ⟨cols⟩

/-- The final `n_rows` truncation of `as_df` (`csv.rs:344-350`). -/
def applyNRows (nRows : Option Nat) (df : DataFrame) : DataFrame :=
  match nRows with
  | some n => if n < df.height then df.slice n else df
  | none => df

/-- `SequentialReader::as_df` (`csv.rs:307-352`).  `hostCpus` stands for
`num_cpus::get()`; `stats` for the external `get_line_stats` result.  The
path branch parses the memory-mapped bytes as they are; the reader branch
takes the record iterator out of the state (`std::mem::take`), reads it to
the end and appends a terminator per `ensureTerminator`. -/
def as_df_read (st : ReaderState) (nThreads : Nat) (stats : Option LineStats)
    (pred : Option Pred) : POut DataFrame × ReaderState :=
  match st.path, st.recordIterBytes with
  | some fileBytes, _ => parse_csv st nThreads fileBytes stats pred
  | none, some bs =>
    parse_csv { st with recordIterBytes := none } nThreads (ensureTerminator bs) stats pred
  | none, none => (.err "file or reader must be set", st)

/-- See the doc comment above `as_df_read`; after the read: the optional
aggregation replacement (`csv.rs:336-342`, panicking on a failed `finish`)
and the final `n_rows` truncation, on the state left by the read step. -/
def as_df (st : ReaderState) (hostCpus : Nat) (stats : Option LineStats)
    (pred : Option Pred) (aggs : Option (List Agg)) : POut DataFrame × ReaderState :=
  let step1 := as_df_read st (st.nThreads.getD hostCpus) stats pred
  (pbind step1.1 fun df =>
    pbind (applyAggregations aggs df) fun df1 =>
    .ok (applyNRows st.nRows df1),
   step1.2)

/-! ## Claim-side definitions -/

/-- The name of the schema field at index `i` (empty on an out-of-range
index; the successful runs below never use the default). -/
def nameAt (schema : List Field) (i : Nat) : String :=
  ((schema.get? i).map Field.name).getD ""

/-- `Except.isOk` as a plain function. -/
def isOkE : Except String (List Nat) → Bool
  | .ok _ => true
  | .error _ => false

/-- The bytes remaining after the BOM / whitespace / line-ending / header
part of the preamble skip. -/
def preambleRest (st : ReaderState) (bytes : List Nat) : List Nat :=
  let b1 := skip_line_ending (skip_whitespace (skip_bom bytes))
  if st.hasHeader then skip_header b1 else b1

/-- Claim-side predicate (the words of claim C7): the `skip_rows` line
advances all succeed on the given bytes. -/
def skipRowsPossible (schemaLen delim : Nat) : List Nat → Nat → Bool
  | _, 0 => true
  | b, n + 1 =>
    match next_line_position b schemaLen delim with
    | none => false
    | some pos => skipRowsPossible schemaLen delim (b.drop pos) n

/-- Claim-side predicate (the words of claim C7): the preamble-skip phase
consumes all `has_header`-plus-`skip_rows` lines before the buffer is
exhausted — when `has_header` is set there must be a (possibly
unterminated) header line to consume, and every `skip_rows` advance must
find a next line. -/
def preambleSatisfied (st : ReaderState) (bytes : List Nat) : Bool :=
  let b1 := skip_line_ending (skip_whitespace (skip_bom bytes))
  (if st.hasHeader then !b1.isEmpty else true) &&
    skipRowsPossible st.schema.length st.delimiter (preambleRest st bytes) st.skipRows

/-- Claim C7 as stated: the read fails with the skip error exactly when
the preamble is not satisfiable, i.e. success exactly on satisfiable
preambles. -/
def claimC7 (st : ReaderState) (bytes : List Nat) : Prop :=
  isOkE (find_starting_point st bytes) = preambleSatisfied st bytes

/-- The column names of a successful read result (empty on failure). -/
def resultColumnNames (r : POut DataFrame) : List String :=
  match r with
  | .ok df => df.columns.map (·.name)
  | .err _ => []
  | .panic _ => []

/-- The field names of the schema accessor's result (empty on a panic). -/
def accessorNames (r : POut (List Field)) : List String :=
  match r with
  | .ok fs => fs.map (·.name)
  | .err _ => []
  | .panic _ => []

/-! ## Concrete instances used by the witnesses and counterexamples -/

/-- Three `i64` columns `a, b, c`, an *unsorted* projection `[2, 0]`. -/
def stC1 : ReaderState :=
  { schema := [⟨"a", DataType.int64⟩, ⟨"b", DataType.int64⟩, ⟨"c", DataType.int64⟩],
    projection := some [2, 0], recordIterBytes := none, nRows := none,
    nThreads := some 1, path := none, hasHeader := false, delimiter := 44,
    skipRows := 0, chunkSize := 1024 }

/-- The frame `parse_csv` produces for `stC1` on the bytes `"1,2,3\n"`. -/
def dfC1 : DataFrame :=
  ⟨[⟨"a", DataType.int64, [some [49]]⟩, ⟨"c", DataType.int64, [some [51]]⟩]⟩

/-- One `i64` column, a reader (no path) yielding `"1\n2\n"`, `n_rows = 1`. -/
def stC2 : ReaderState :=
  { schema := [⟨"a", DataType.int64⟩], projection := some [0],
    recordIterBytes := some [49, 10, 50, 10], nRows := some 1,
    nThreads := some 1, path := none, hasHeader := false, delimiter := 44,
    skipRows := 0, chunkSize := 1024 }

/-- The frame `as_df` produces for `stC2`: two parsed rows truncated to one. -/
def dfC2 : DataFrame := ⟨[⟨"a", DataType.int64, [some [49]]⟩]⟩

/-- Schema `[a:i64, b:utf8]` with projection `[1]`: the single projected
column is the string column at schema index `1`, but the worker's partial
frame has only one column (index `0`). -/
def stC3 : ReaderState :=
  { schema := [⟨"a", DataType.int64⟩, ⟨"b", DataType.utf8⟩], projection := some [1],
    recordIterBytes := none, nRows := none, nThreads := some 1, path := none,
    hasHeader := false, delimiter := 44, skipRows := 0, chunkSize := 1024 }

/-- One `i64` column, a reader (no path) yielding `"1\n2\n"`, a projection. -/
def stC4 : ReaderState :=
  { schema := [⟨"a", DataType.int64⟩], projection := some [0],
    recordIterBytes := some [49, 10, 50, 10], nRows := none,
    nThreads := some 1, path := none, hasHeader := false, delimiter := 44,
    skipRows := 0, chunkSize := 1024 }

/-- `has_header = true`, `skip_rows = 0`: on an empty buffer the header
line cannot be consumed, yet no error is raised. -/
def stC7 : ReaderState :=
  { schema := [⟨"a", DataType.int64⟩], projection := none,
    recordIterBytes := none, nRows := none, nThreads := some 1, path := none,
    hasHeader := true, delimiter := 44, skipRows := 0, chunkSize := 1024 }

/-- A predicate whose `evaluate` succeeds but returns a non-boolean
(`utf8`) column. -/
def badPred : Pred := fun _ => .ok ⟨"mask", DataType.utf8, [some [49]]⟩

/-- A predicate whose `evaluate` itself returns an error. -/
def errPred : Pred := fun _ => .error "predicate failed"

/-- An aggregation whose `finish` returns an error. -/
def errAgg : Agg := fun _ => .error "aggregation failed"

/-- A one-row, one-column frame fed to the predicate / aggregation steps. -/
def dfC8 : DataFrame := ⟨[⟨"a", DataType.int64, [some [49]]⟩]⟩

/-- Three `i64` columns `a, b, c`, an *unsorted* projection `[2, 0]`
(same shape as `stC1`; its own copy so the claims stay independent). -/
def stC9 : ReaderState :=
  { schema := [⟨"a", DataType.int64⟩, ⟨"b", DataType.int64⟩, ⟨"c", DataType.int64⟩],
    projection := some [2, 0], recordIterBytes := none, nRows := none,
    nThreads := some 1, path := none, hasHeader := false, delimiter := 44,
    skipRows := 0, chunkSize := 1024 }

/-- `stC9` with the already-sorted projection `[0, 2]`. -/
def stC9w : ReaderState := { stC9 with projection := some [0, 2] }

/-- The frame `parse_csv` produces for `stC9w` on the bytes `"1,2,3\n"`. -/
def dfC9w : DataFrame :=
  ⟨[⟨"a", DataType.int64, [some [49]]⟩, ⟨"c", DataType.int64, [some [51]]⟩]⟩

/-- The state `as_df` leaves behind for `stC2`: record iterator taken,
projection taken. -/
def stC2' : ReaderState := { stC2 with recordIterBytes := none, projection := none }

/-- A configured `chunk_size` of `0`: the planned divisor
`min(chunk_size, total_rows)` is `0`. -/
def stC10 : ReaderState :=
  { schema := [⟨"a", DataType.int64⟩], projection := none,
    recordIterBytes := none, nRows := none, nThreads := some 1, path := none,
    hasHeader := false, delimiter := 44, skipRows := 0, chunkSize := 0 }

/-! ## Name preservation through the parse pipeline -/

theorem pbind_ok {α β : Type} {x : POut α} {f : α → POut β} {b : β} :
    pbind x f = .ok b ↔ ∃ a, x = .ok a ∧ f a = .ok b := by
  cases x <;> simp [pbind]

theorem optUnwrap_ok {α : Type} {o : Option α} {a : α} :
    optUnwrap o = .ok a ↔ o = some a := by
  cases o <;> simp [optUnwrap]

theorem nameAt_of_get (schema : List Field) (i : Nat) (f : Field)
    (h : schema.get? i = some f) : nameAt schema i = f.name := by
  unfold nameAt
  rw [h]
  rfl

theorem init_buffers_names (schema : List Field) :
    ∀ (proj : List Nat) (bufs : List Column), init_buffers schema proj = .ok bufs →
      bufs.map (·.name) = proj.map (nameAt schema) := by
  intro proj
  induction proj with
  | nil =>
    intro bufs h
    simp only [init_buffers, POut.ok.injEq] at h
    subst h
    rfl
  | cons i rest ih =>
    intro bufs h
    simp only [init_buffers] at h
    rw [pbind_ok] at h
    obtain ⟨f, hf, h⟩ := h
    rw [pbind_ok] at h
    obtain ⟨tl, htl, h⟩ := h
    rw [POut.ok.injEq] at h
    subst h
    rw [optUnwrap_ok] at hf
    simp only [List.map_cons]
    rw [nameAt_of_get schema i f hf, ih tl htl]

theorem appendRecord_names (delim : Nat) (record : List Nat) :
    ∀ (proj : List Nat) (bufs : List Column),
      (appendRecord delim proj record bufs).map (·.name) =
        (bufs.take proj.length).map (·.name) := by
  intro proj
  induction proj with
  | nil => intro bufs; simp [appendRecord]
  | cons p ps ih =>
    intro bufs
    cases bufs with
    | nil => simp [appendRecord]
    | cons b bs =>
      simp only [appendRecord, List.zipWith, List.map_cons, List.length_cons,
        List.take_succ_cons]
      exact congrArg (_ :: ·) (ih bs)

theorem appendRecord_length (delim : Nat) (record : List Nat)
    (proj : List Nat) (bufs : List Column) :
    (appendRecord delim proj record bufs).length = min proj.length bufs.length := by
  simp [appendRecord]

theorem parse_lines_fold_names (delim : Nat) (proj : List Nat) :
    ∀ (records : List (List Nat)) (bufs : List Column), bufs.length = proj.length →
      (records.foldl (fun bs record => appendRecord delim proj record bs) bufs).map (·.name)
        = bufs.map (·.name) := by
  intro records
  induction records with
  | nil => intro bufs _; rfl
  | cons r rs ih =>
    intro bufs hlen
    simp only [List.foldl_cons]
    have hlen' : (appendRecord delim proj r bufs).length = proj.length := by
      rw [appendRecord_length, hlen, Nat.min_self]
    rw [ih _ hlen', appendRecord_names, hlen.symm, List.take_length]

theorem parse_lines_names (localBytes : List Nat) (delim : Nat) (proj : List Nat)
    (bufs : List Column) (hlen : bufs.length = proj.length) :
    (parse_lines localBytes delim proj bufs).map (·.name) = bufs.map (·.name) :=
  parse_lines_fold_names delim proj (splitRecords localBytes) bufs hlen

theorem filterRows_names (df : DataFrame) (mask : List Bool) :
    (df.filterRows mask).columns.map (·.name) = df.columns.map (·.name) := by
  simp [DataFrame.filterRows]

theorem applyPredicate_names (pred : Option Pred) (df df' : DataFrame)
    (h : applyPredicate pred df = .ok df') :
    df'.columns.map (·.name) = df.columns.map (·.name) := by
  cases pred with
  | none =>
    simp only [applyPredicate, POut.ok.injEq] at h
    subst h
    rfl
  | some p =>
    simp only [applyPredicate] at h
    cases hp : p df with
    | error e =>
      simp only [hp] at h
      exact POut.noConfusion h
    | ok s =>
      simp only [hp] at h
      by_cases hb : s.dtype = DataType.boolean
      · rw [if_pos hb, POut.ok.injEq] at h
        subst h
        exact filterRows_names df (maskBits s)
      · rw [if_neg hb] at h
        exact POut.noConfusion h

theorem workerStep_names (schema : List Field) (strCols proj : List Nat) (delim : Nat)
    (pred : Option Pred) (bytes : List Nat) (chunk : Nat × Nat) (caps : List Nat)
    (df : DataFrame) (caps' : List Nat)
    (h : workerStep schema strCols proj delim pred bytes chunk caps = .ok (df, caps')) :
    df.columns.map (·.name) = proj.map (nameAt schema) := by
  simp only [workerStep] at h
  rw [pbind_ok] at h
  obtain ⟨bufs, hb, h⟩ := h
  rw [pbind_ok] at h
  obtain ⟨df1, hp, h⟩ := h
  rw [pbind_ok] at h
  obtain ⟨capsU, _, h⟩ := h
  rw [POut.ok.injEq, Prod.mk.injEq] at h
  obtain ⟨rfl, rfl⟩ := h
  have hnames := init_buffers_names schema proj bufs hb
  have hlen : bufs.length = proj.length := by
    have := congrArg List.length hnames
    simpa using this
  have := applyPredicate_names pred _ _ hp
  rw [this]
  show (parse_lines ((bytes.take chunk.2).drop chunk.1) delim proj bufs).map (·.name)
    = proj.map (nameAt schema)
  rw [parse_lines_names _ _ _ _ hlen, hnames]

theorem runWorkers_names (schema : List Field) (strCols proj : List Nat) (delim : Nat)
    (pred : Option Pred) (bytes : List Nat) :
    ∀ (chunks : List (Nat × Nat)) (caps : List Nat) (dfs : List DataFrame)
      (capsF : List Nat),
      runWorkers schema strCols proj delim pred bytes chunks caps = .ok (dfs, capsF) →
      ∀ df ∈ dfs, df.columns.map (·.name) = proj.map (nameAt schema) := by
  intro chunks
  induction chunks with
  | nil =>
    intro caps dfs capsF h df hdf
    simp only [runWorkers] at h
    cases h
    cases hdf
  | cons c cs ih =>
    intro caps dfs capsF h df hdf
    simp only [runWorkers] at h
    rw [pbind_ok] at h
    obtain ⟨p, hw, h⟩ := h
    obtain ⟨df0, caps'⟩ := p
    rw [pbind_ok] at h
    obtain ⟨q, hr, h⟩ := h
    obtain ⟨dfs', capsF'⟩ := q
    rw [POut.ok.injEq, Prod.mk.injEq] at h
    obtain ⟨hdfs, -⟩ := h
    subst hdfs
    rcases List.mem_cons.mp hdf with rfl | hmem
    · exact workerStep_names schema strCols proj delim pred bytes c caps df caps' hw
    · exact ih caps' dfs' capsF' hr df hmem

theorem vstack_zip_names :
    ∀ (as bs : List Column),
      (List.zipWith (fun ca cb => { ca with values := ca.values ++ cb.values }) as bs).map
          (·.name)
        = (as.take bs.length).map (·.name) := by
  intro as
  induction as with
  | nil => intro bs; simp
  | cons a as' ih =>
    intro bs
    cases bs with
    | nil => simp
    | cons b bs' =>
      simp only [List.zipWith, List.map_cons, List.length_cons, List.take_succ_cons]
      exact congrArg (_ :: ·) (ih bs')

theorem vstack_names (a b : DataFrame) (N : List String)
    (ha : a.columns.map (·.name) = N) (hb : b.columns.map (·.name) = N) :
    (vstack a b).columns.map (·.name) = N := by
  have hlen : a.columns.length = b.columns.length := by
    have h1 := congrArg List.length ha
    have h2 := congrArg List.length hb
    simp only [List.length_map] at h1 h2
    omega
  have hv : (vstack a b).columns
      = List.zipWith (fun ca cb => { ca with values := ca.values ++ cb.values })
          a.columns b.columns := rfl
  rw [hv, vstack_zip_names, ← hlen, List.take_length, ha]

theorem foldl_vstack_names (N : List String) :
    ∀ (rest : List DataFrame) (a : DataFrame), a.columns.map (·.name) = N →
      (∀ df ∈ rest, df.columns.map (·.name) = N) →
      (rest.foldl vstack a).columns.map (·.name) = N := by
  intro rest
  induction rest with
  | nil => intro a ha _; exact ha
  | cons b bs ih =>
    intro a ha hall
    simp only [List.foldl_cons]
    exact ih (vstack a b)
      (vstack_names a b N ha (hall b (List.mem_cons_self b bs)))
      (fun df hdf => hall df (List.mem_cons_of_mem b hdf))

theorem accumulate_names (dfs : List DataFrame) (d : DataFrame) (N : List String)
    (h : accumulate_dataframes_vertical dfs = .ok d)
    (hall : ∀ df ∈ dfs, df.columns.map (·.name) = N) :
    d.columns.map (·.name) = N := by
  cases dfs with
  | nil => cases h
  | cons d0 rest =>
    simp only [accumulate_dataframes_vertical] at h
    cases h
    exact foldl_vstack_names N rest d0 (hall d0 (List.mem_cons_self d0 rest))
      (fun df hdf => hall df (List.mem_cons_of_mem d0 hdf))

theorem parse_csv_core_names (st : ReaderState) (nThreads : Nat) (b0 : List Nat)
    (stats : Option LineStats) (pred : Option Pred) (df : DataFrame)
    (h : parse_csv_core st nThreads b0 stats pred = .ok df) :
    df.columns.map (·.name) =
      (resolveProjection st.projection st.schema.length).map (nameAt st.schema) := by
  simp only [parse_csv_core] at h
  by_cases hc : min st.chunkSize (statsPlan st b0 stats).1 = 0
  · rw [if_pos hc] at h
    exact POut.noConfusion h
  · rw [if_neg hc] at h
    rw [pbind_ok] at h
    obtain ⟨strCols, hs, h⟩ := h
    by_cases hn : nThreads = 0
    · rw [if_pos hn] at h
      exact POut.noConfusion h
    · rw [if_neg hn] at h
      rw [pbind_ok] at h
      obtain ⟨q, hr, h⟩ := h
      obtain ⟨dfs, capsF⟩ := q
      exact accumulate_names dfs df _ h
        (runWorkers_names st.schema strCols _ st.delimiter pred _ _ _ dfs capsF hr)

/-! ## Further shared lemmas -/

theorem applyNRows_height_le (k : Nat) (df : DataFrame) :
    (applyNRows (some k) df).height ≤ k := by
  simp only [applyNRows]
  by_cases hlt : k < df.height
  · rw [if_pos hlt]
    cases hcols : df.columns with
    | nil => simp [DataFrame.slice, DataFrame.height, hcols]
    | cons c cs =>
      simp only [DataFrame.slice, DataFrame.height, hcols, List.map_cons,
        List.length_take]
      omega
  · rw [if_neg hlt]
    omega

theorem parse_csv_ok_core (st : ReaderState) (nT : Nat) (bytes : List Nat)
    (stats : Option LineStats) (pred : Option Pred) (df : DataFrame) (st' : ReaderState)
    (h : parse_csv st nT bytes stats pred = (.ok df, st')) :
    ∃ b0, find_starting_point st bytes = .ok b0 ∧
      parse_csv_core st nT b0 stats pred = .ok df := by
  simp only [parse_csv] at h
  cases hf : find_starting_point st bytes with
  | error e =>
    simp only [hf] at h
    rw [Prod.mk.injEq] at h
    exact POut.noConfusion h.1
  | ok b0 =>
    simp only [hf] at h
    rw [Prod.mk.injEq] at h
    exact ⟨b0, rfl, h.1⟩

theorem parse_csv_core_ok_strColumns (st : ReaderState) (nT : Nat) (b0 : List Nat)
    (stats : Option LineStats) (pred : Option Pred) (df : DataFrame)
    (h : parse_csv_core st nT b0 stats pred = .ok df) :
    ∃ strCols,
      strColumnsOf st.schema (resolveProjection st.projection st.schema.length)
        = .ok strCols := by
  simp only [parse_csv_core] at h
  by_cases hc : min st.chunkSize (statsPlan st b0 stats).1 = 0
  · rw [if_pos hc] at h
    exact POut.noConfusion h
  · rw [if_neg hc] at h
    rw [pbind_ok] at h
    obtain ⟨strCols, hs, -⟩ := h
    exact ⟨strCols, hs⟩

theorem strColumnsOf_ok_valid (schema : List Field) :
    ∀ (l s : List Nat), strColumnsOf schema l = .ok s →
      ∀ i ∈ l, ∃ f, schema.get? i = some f := by
  intro l
  induction l with
  | nil => intro s _ i hi; cases hi
  | cons j rest ih =>
    intro s h i hi
    simp only [strColumnsOf] at h
    rw [pbind_ok] at h
    obtain ⟨f, hf, h⟩ := h
    rw [pbind_ok] at h
    obtain ⟨tl, htl, -⟩ := h
    rw [optUnwrap_ok] at hf
    rcases List.mem_cons.mp hi with rfl | hmem
    · exact ⟨f, hf⟩
    · exact ih tl htl i hmem

theorem fieldsAt_ok_of_valid (schema : List Field) :
    ∀ l : List Nat, (∀ i ∈ l, ∃ f, schema.get? i = some f) →
      ∃ fs, fieldsAt schema l = .ok fs ∧ fs.map (·.name) = l.map (nameAt schema) := by
  intro l
  induction l with
  | nil => intro _; exact ⟨[], rfl, rfl⟩
  | cons j rest ih =>
    intro hv
    obtain ⟨f, hf⟩ := hv j (List.mem_cons_self j rest)
    obtain ⟨fs, hfs, hnames⟩ := ih (fun i hi => hv i (List.mem_cons_of_mem j hi))
    refine ⟨f :: fs, ?_, ?_⟩
    · simp only [fieldsAt, hf, idxPanic, pbind, hfs]
    · simp only [List.map_cons, hnames, nameAt_of_get schema j f hf]

theorem parse_csv_state (st : ReaderState) (nT : Nat) (bytes : List Nat)
    (stats : Option LineStats) (pred : Option Pred) :
    (parse_csv st nT bytes stats pred).2.path = st.path ∧
    (parse_csv st nT bytes stats pred).2.recordIterBytes = st.recordIterBytes := by
  simp only [parse_csv]
  cases find_starting_point st bytes <;> simp

theorem as_df_state (st : ReaderState) (hostCpus : Nat) (stats : Option LineStats)
    (pred : Option Pred) (aggs : Option (List Agg)) (hp : st.path = none) :
    (as_df st hostCpus stats pred aggs).2.path = none ∧
    (as_df st hostCpus stats pred aggs).2.recordIterBytes = none := by
  simp only [as_df, as_df_read]
  cases hI : st.recordIterBytes with
  | none =>
    simp [hp, hI]
  | some bs =>
    simp only [hp, hI]
    constructor
    · rw [(parse_csv_state _ _ _ _ _).1]
    · rw [(parse_csv_state _ _ _ _ _).2]

theorem skipRowsLoop_isOk (L d : Nat) :
    ∀ (n : Nat) (b : List Nat),
      isOkE (skipRowsLoop L d n b) = skipRowsPossible L d b n := by
  intro n
  induction n with
  | zero => intro b; rfl
  | succ n ih =>
    intro b
    cases hnl : next_line_position b L d with
    | none => simp [skipRowsLoop, skipRowsPossible, hnl, isOkE]
    | some pos =>
      simp only [skipRowsLoop, skipRowsPossible, hnl]
      exact ih _

/-! ## The claims -/

/-- Claim C1: for every configuration and input, the columns of the Result
Frame returned by `parse_csv` appear in the order given by the ascending
sort of the requested projection (`resolveProjection` is the source's
`projection.take().map(sort_unstable)` with the `0..schema.len()`
fallback). -/
theorem claim_C1_column_order (st : ReaderState) (nThreads : Nat) (bytes : List Nat)
    (stats : Option LineStats) (pred : Option Pred) (df : DataFrame) (st' : ReaderState)
    (h : parse_csv st nThreads bytes stats pred = (.ok df, st')) :
    df.columns.map (·.name) =
      (resolveProjection st.projection st.schema.length).map (nameAt st.schema) := by
  obtain ⟨b0, -, hcore⟩ := parse_csv_ok_core st nThreads bytes stats pred df st' h
  exact parse_csv_core_names st nThreads b0 stats pred df hcore

/-- Witness for C1: the unsorted projection `[2, 0]` over `"1,2,3\n"`
yields the columns in the sorted order `a, c`. -/
theorem claim_C1_column_order_witness :
    parse_csv stC1 1 [49, 44, 50, 44, 51, 10] none none
        = (.ok dfC1, { stC1 with projection := none }) ∧
      dfC1.columns.map (·.name)
        = (resolveProjection stC1.projection stC1.schema.length).map (nameAt stC1.schema) :=
  ⟨by decide,
   claim_C1_column_order stC1 1 [49, 44, 50, 44, 51, 10] none none dfC1
     { stC1 with projection := none } (by decide)⟩

/-- Claim C2: when `n_rows = some k` and the read succeeds, the returned
frame has height at most `k` (the final slice of `as_df`). -/
theorem claim_C2_nrows_bound (st : ReaderState) (hostCpus : Nat)
    (stats : Option LineStats) (pred : Option Pred) (aggs : Option (List Agg))
    (df : DataFrame) (st' : ReaderState) (k : Nat)
    (h : as_df st hostCpus stats pred aggs = (.ok df, st'))
    (hk : st.nRows = some k) : df.height ≤ k := by
  simp only [as_df] at h
  rw [Prod.mk.injEq] at h
  obtain ⟨h1, -⟩ := h
  rw [pbind_ok] at h1
  obtain ⟨df0, -, h1⟩ := h1
  rw [pbind_ok] at h1
  obtain ⟨df1, -, h1⟩ := h1
  rw [POut.ok.injEq] at h1
  subst h1
  rw [hk]
  exact applyNRows_height_le k df1

/-- Witness for C2: `n_rows = 1` on a two-row input yields height `1`. -/
theorem claim_C2_nrows_bound_witness :
    as_df stC2 1 none none none = (.ok dfC2, stC2') ∧ dfC2.height ≤ 1 :=
  ⟨by decide, claim_C2_nrows_bound stC2 1 none none none dfC2 stC2' 1 (by decide) rfl⟩

/-- Claim C3 (code bug): with schema `[a:i64, b:utf8]` and projection
`[1]`, the capacity update indexes the one-column partial frame with the
schema index `1` (`df.select_at_idx(i).unwrap()`), so the whole parse
panics instead of raising the capacity entry of column `b`. -/
theorem claim_C3_capacity_update_panics :
    (parse_csv stC3 1 [120, 44, 121, 10] none none).1
      = .panic "called Option::unwrap on a None value" := by decide

/-- Claim C4 (counterexample): the second `as_df` call on the same reader
with the same configuration does not return the same frame — the first
call consumed the record iterator, so the second returns the
`file or reader must be set` error. -/
theorem claim_C4_counterexample :
    (as_df (as_df stC4 1 none none none).2 1 none none none).1
      ≠ (as_df stC4 1 none none none).1 := by decide

/-- Claim C4 (amended): for every reader without a path, the second
`as_df` call fails with `file or reader must be set`: the read entry point
is single-shot, not idempotent. -/
theorem claim_C4_second_call_errors (st : ReaderState) (hostCpus : Nat)
    (stats : Option LineStats) (pred : Option Pred) (aggs : Option (List Agg))
    (hp : st.path = none) :
    (as_df (as_df st hostCpus stats pred aggs).2 hostCpus stats pred aggs).1
      = .err "file or reader must be set" := by
  obtain ⟨h1, h2⟩ := as_df_state st hostCpus stats pred aggs hp
  generalize (as_df st hostCpus stats pred aggs).2 = st1 at h1 h2
  simp [as_df, as_df_read, h1, h2, pbind]

/-- Witness for the amended C4 at the concrete reader `stC4`. -/
theorem claim_C4_second_call_errors_witness :
    (as_df (as_df stC4 1 none none none).2 1 none none none).1
      = .err "file or reader must be set" :=
  claim_C4_second_call_errors stC4 1 none none none rfl

/-- Claim C5 (code bug): the trailing-terminator guard
`last != b'\n' || last != b'\r'` is a tautology, so a buffer that already
ends in `\n` (here `"a\n"`) still gets a terminator appended instead of
being passed unchanged. -/
theorem claim_C5_appends_despite_newline :
    ensureTerminator [97, 10] = [97, 10, 10] := by decide

/-- Claim C5 (the tautology, in general): every non-empty buffer gets a
terminator appended, whatever its last byte. -/
theorem ensureTerminator_always_appends (bytes : List Nat) (h : bytes ≠ []) :
    ensureTerminator bytes = bytes ++ [10] := by
  have hne : bytes.isEmpty = false := by simpa [List.isEmpty_iff] using h
  have hor : (bytes.getLastD 0 != 10 || bytes.getLastD 0 != 13) = true := by
    rcases eq_or_ne (bytes.getLastD 0) 10 with h10 | h10
    · rw [h10]
      decide
    · simp only [Bool.or_eq_true, bne_iff_ne]
      exact Or.inl h10
  unfold ensureTerminator
  split
  · rfl
  · rename_i hcond
    rw [hne, hor] at hcond
    exact absurd rfl hcond

/-- Claim C6 (code bug): with `POLARS_VERBOSE` set, the diagnostic
`"file < 128 rows, no statistics determined"` is emitted even when
`get_line_stats` returned statistics (here mean `5`, stddev `1`). -/
theorem claim_C6_log_unconditional :
    parseCsvStatsLog (some ⟨5, 1⟩)
      = [LogEvent.avgLineLength, LogEvent.initialRowEstimate, LogEvent.noStatistics] := rfl

/-- Claim C7 (counterexample): on the empty buffer with `has_header = true`
and `skip_rows = 0`, the preamble (one header line) cannot be consumed,
yet `find_starting_point` returns `Ok` instead of the skip error — the
claimed equivalence fails. -/
theorem claim_C7_counterexample : ¬ claimC7 stC7 [] := by
  unfold claimC7
  decide

/-- Claim C7 (amended): `find_starting_point` fails exactly when one of
the `skip_rows` line advances finds no next line; the BOM / whitespace /
line-ending / header skips never raise the error. -/
theorem claim_C7_error_iff_skip_loop (st : ReaderState) (bytes : List Nat) :
    isOkE (find_starting_point st bytes)
      = skipRowsPossible st.schema.length st.delimiter (preambleRest st bytes)
          st.skipRows := by
  have hdef : find_starting_point st bytes
      = skipRowsLoop st.schema.length st.delimiter st.skipRows (preambleRest st bytes) :=
    rfl
  rw [hdef]
  exact skipRowsLoop_isOk st.schema.length st.delimiter st.skipRows (preambleRest st bytes)

/-- Claim C8 (counterexample): a predicate returning a non-boolean column
makes the worker panic through `expect`, not fail with the call's typed
error result. -/
theorem claim_C8_counterexample :
    applyPredicate (some badPred) dfC8
      = .panic "filter predicates was not of type boolean" := rfl

/-- Claim C8 (amended): an error from the predicate's `evaluate` does
propagate as the typed error; but a predicate returning a non-boolean
column panics through `expect`, and a failing aggregation `finish` panics
through `unwrap` — neither is surfaced as the typed error result. -/
theorem claim_C8_panic_not_typed_error :
    (∀ (p : Pred) (df : DataFrame) (e : String), p df = .error e →
        applyPredicate (some p) df = .err e) ∧
    (∀ (p : Pred) (df : DataFrame) (s : Column), p df = .ok s →
        s.dtype ≠ DataType.boolean →
        applyPredicate (some p) df = .panic "filter predicates was not of type boolean") ∧
    (∀ (a : Agg) (rest : List Agg) (df : DataFrame) (e : String), a df = .error e →
        applyAggregations (some (a :: rest)) df
          = .panic "called Result::unwrap on an Err value") := by
  refine ⟨?_, ?_, ?_⟩
  · intro p df e hp
    simp [applyPredicate, hp]
  · intro p df s hp hb
    simp [applyPredicate, hp, hb]
  · intro a rest df e ha
    simp [applyAggregations, aggColumns, ha, resUnwrap, pbind]

/-- Witness for the amended C8 at concrete collaborators. -/
theorem claim_C8_panic_not_typed_error_witness :
    applyPredicate (some errPred) dfC8 = .err "predicate failed" ∧
    applyPredicate (some badPred) dfC8
      = .panic "filter predicates was not of type boolean" ∧
    applyAggregations (some [errAgg]) dfC8
      = .panic "called Result::unwrap on an Err value" :=
  ⟨claim_C8_panic_not_typed_error.1 errPred dfC8 "predicate failed" rfl,
   claim_C8_panic_not_typed_error.2.1 badPred dfC8 ⟨"mask", DataType.utf8, [some [49]]⟩
     rfl (by decide),
   claim_C8_panic_not_typed_error.2.2 errAgg [] dfC8 "aggregation failed" rfl⟩

/-- Claim C9 (counterexample): with the unsorted projection `[2, 0]`, the
schema accessor returns the fields in the supplied order `c, a`, while the
read returns the columns in the sorted order `a, c` — the two orders are
not equal. -/
theorem claim_C9_counterexample :
    accessorNames (schemaAccessor stC9) = ["c", "a"] ∧
    resultColumnNames (parse_csv stC9 1 [49, 44, 50, 44, 51, 10] none none).1
      = ["a", "c"] ∧
    (["c", "a"] : List String) ≠ ["a", "c"] := by decide

/-- Claim C9 (amended): when the supplied projection is already sorted
ascending, the field order of the schema accessor equals the column order
of the frame produced by the read. -/
theorem claim_C9_sorted_accessor (st : ReaderState) (nThreads : Nat) (bytes : List Nat)
    (stats : Option LineStats) (pred : Option Pred) (df : DataFrame) (st' : ReaderState)
    (v : List Nat) (hv : st.projection = some v) (hsorted : List.Sorted (· ≤ ·) v)
    (h : parse_csv st nThreads bytes stats pred = (.ok df, st')) :
    ∃ fs, schemaAccessor st = .ok fs ∧ fs.map (·.name) = df.columns.map (·.name) := by
  obtain ⟨b0, -, hcore⟩ := parse_csv_ok_core st nThreads bytes stats pred df st' h
  have hres : resolveProjection st.projection st.schema.length = v := by
    rw [hv]
    exact hsorted.insertionSort_eq
  have hnames := parse_csv_core_names st nThreads b0 stats pred df hcore
  rw [hres] at hnames
  obtain ⟨strCols, hs⟩ := parse_csv_core_ok_strColumns st nThreads b0 stats pred df hcore
  rw [hres] at hs
  have hvalid := strColumnsOf_ok_valid st.schema v strCols hs
  obtain ⟨fs, hfs, hfnames⟩ := fieldsAt_ok_of_valid st.schema v hvalid
  refine ⟨fs, ?_, ?_⟩
  · simp only [schemaAccessor, hv]
    exact hfs
  · rw [hfnames, hnames]

/-- Witness for the amended C9: the sorted projection `[0, 2]` gives the
accessor order `a, c`, equal to the read's column order. -/
theorem claim_C9_sorted_accessor_witness :
    parse_csv stC9w 1 [49, 44, 50, 44, 51, 10] none none
        = (.ok dfC9w, { stC9w with projection := none }) ∧
      ∃ fs, schemaAccessor stC9w = .ok fs ∧
        fs.map (·.name) = dfC9w.columns.map (·.name) :=
  ⟨by decide,
   claim_C9_sorted_accessor stC9w 1 [49, 44, 50, 44, 51, 10] none none dfC9w
     { stC9w with projection := none } [0, 2] rfl (by decide) (by decide)⟩

/-- Claim C10 (code bug): with a configured `chunk_size` of `0`, the
planned divisor `min(chunk_size, total_rows)` is `0` and the division
`total_rows / chunk_size` faults — the parse panics on any input reaching
the planning step. -/
theorem claim_C10_divide_by_zero :
    (parse_csv stC10 1 [49, 10] none none).1 = .panic "attempt to divide by zero" := by
  decide

end PolarsCsv
